import Mathlib

/-!
Verification development for the LLM API gateway in src-tauri/src/gateway
(config.rs, cache.rs, stats.rs, converter.rs, proxy.rs).

The Rust code is shallowly embedded: hash maps become association lists,
machine integers become Nat with explicit wrap-around modulus where the
source can overflow, fallible code returns Option or Except, and the
request-handling loop of proxy.rs becomes a recursive walk over the
candidate list.  Floating-point fields of the source (prices, costs,
latency averages and percentiles) are outside every property treated
here and are omitted from the records; that omission is noted at each
record below.
-/

set_option autoImplicit false

namespace Gateway

/-- Wrap-around bound of u32 values. -/
def u32Lim : Nat := 2 ^ 32

/-- Wrap-around bound of u64 values. -/
def u64Lim : Nat := 2 ^ 64

/-- Wrapping subtraction on u64 values (release-mode Rust `a - b`),
for `a, b < u64Lim`. -/
def u64Sub (a b : Nat) : Nat := (a + u64Lim - b) % u64Lim

theorem u64Sub_of_le {a b : Nat} (hb : b ≤ a) (ha : a < u64Lim) :
    u64Sub a b = a - b := by
  unfold u64Sub
  have h1 : a + u64Lim - b = (a - b) + u64Lim := by omega
  rw [h1, Nat.add_mod_right]
  exact Nat.mod_eq_of_lt (by omega)

/-! ## config.rs -/

/-- Model of `ApiType` from config.rs. -/
inductive ApiType where
  | Anthropic
  | OpenAIResponses
  | OpenAIChat
deriving DecidableEq, Repr

/-- Model of `Provider` from config.rs.  `model_mapping` (a `HashMap<String,String>`
with unique keys) is an association list; the f64 price fields are omitted
(no property here mentions them).  The `claude_code_proxy` flag is read by
`handle_request` in proxy.rs; the `Provider` struct in the shipped
config.rs lacks the field, so it is modelled from the spec: a per-provider
boolean that turns on Anthropic-to-OpenAI translation. -/
structure Provider where
  id : String
  name : String
  base_url : String
  api_key : String
  model_mapping : List (String × String)
  enabled : Bool
  api_types : List ApiType
  weight : Nat
  claude_code_proxy : Bool
deriving DecidableEq, Repr

/-- Model of `GatewayConfig` from config.rs (ports and flags as plain values). -/
structure GatewayConfig where
  anthropic_port : Nat
  responses_port : Nat
  chat_port : Nat
  anthropic_enabled : Bool
  responses_enabled : Bool
  chat_enabled : Bool
  port : Nat
  enabled : Bool
  providers : List Provider
  fallback_enabled : Bool
  cache_enabled : Bool
  cache_ttl_seconds : Nat
  cache_max_entries : Nat
  circuit_breaker_cooldown_seconds : Nat
deriving DecidableEq, Repr

/-- Model of `GatewayConfig::get_providers_for_api_type` from config.rs:
filter to enabled providers whose `api_types` contains the listener
dialect (iteration order of the `providers` vector is preserved). -/
def GatewayConfig.get_providers_for_api_type (c : GatewayConfig) (t : ApiType) :
    List Provider :=
  c.providers.filter (fun p => p.enabled && p.api_types.contains t)

/-- Modelled from the spec: insert a provider behind exactly the
providers of strictly greater weight, so that a provider of equal weight
stays behind the inserted one only if it was inserted later — the stable
insertion step of a descending-weight sort whose ties keep config order. -/
def insertByWeightDesc (p : Provider) : List Provider → List Provider
  | [] => [p]
  | q :: qs => if p.weight < q.weight then q :: insertByWeightDesc p qs else p :: q :: qs

/-- Modelled from the spec: "Order candidates by descending `weight`,
breaking ties by config index" — a stable sort of the filtered candidate
list by descending weight.  No such ordering step exists in the source;
this definition exists only to be compared with
`GatewayConfig.get_providers_for_api_type`. -/
def specOrderByWeight : List Provider → List Provider
  | [] => []
  | p :: ps => insertByWeightDesc p (specOrderByWeight ps)

/-- Modelled from the spec: the candidate sequence the spec describes,
filtered then stably sorted by descending weight. -/
def specCandidates (c : GatewayConfig) (t : ApiType) : List Provider :=
  specOrderByWeight (c.providers.filter (fun p => p.enabled && p.api_types.contains t))

/-! ## proxy.rs: response classification and error-body capture -/

/-- Model of `StatusCode::is_server_error` of the http crate: 500..=599. -/
def isServerError (status : Nat) : Bool :=
  500 ≤ status && status < 600

/-- The `should_fallback` classification from `handle_request` in proxy.rs. -/
def should_fallback (status : Nat) : Bool :=
  isServerError status ||
    status == 401 || status == 402 || status == 403 || status == 410 || status == 429

/-- Byte length of a character list under UTF-8. -/
def utf8Len (s : List Char) : Nat := (s.map Char.utf8Size).sum

/-- Rust byte slicing `&text[..n]` on a UTF-8 string: `none` models the
panic raised when `n` is not a character boundary (or out of range). -/
def takeBytes (s : List Char) (n : Nat) : Option (List Char) :=
  if n = 0 then some [] else
    match s with
    | [] => none
    | c :: cs => if c.utf8Size ≤ n then (takeBytes cs (n - c.utf8Size)).map (c :: ·) else none

/-- The error-body capture in `handle_request` (proxy.rs): if
`text.len() > 500` (bytes) then `format!("{}...(truncated)", &text[..500])`
else the body itself.  `none` models the byte-slice panic. -/
def truncate_error_body (s : List Char) : Option (List Char) :=
  if utf8Len s > 500 then
    (takeBytes s 500).map (fun cs => cs ++ "...(truncated)".data)
  else
    some s

/-! ## cache.rs -/

/-- Model of `CacheEntry` from cache.rs (body as a byte list). -/
structure CacheEntry where
  response_body : List Nat
  status : Nat
  headers : List (String × String)
  created_at : Nat
  ttl_seconds : Nat
deriving DecidableEq, Repr

/-- Model of `CacheEntry::is_expired`, with the wall clock passed explicitly. -/
def CacheEntry.isExpired (e : CacheEntry) (now : Nat) : Bool :=
  now > e.created_at + e.ttl_seconds

/-- The `HashMap<String, CacheEntry>` of `CacheManager`: an association
list with unique keys, whose list order stands for the (arbitrary)
iteration order of the hash map. -/
abbrev CacheMap := List (String × CacheEntry)

/-- Model of `HashMap::insert`: replace the entry of an existing key, else add one. -/
def cacheInsert (c : CacheMap) (k : String) (e : CacheEntry) : CacheMap :=
  if c.any (fun kv => kv.1 = k) then
    c.map (fun kv => if kv.1 = k then (k, e) else kv)
  else
    c ++ [(k, e)]

/-- Model of `CacheManager::evict_expired_internal`: retain unexpired entries. -/
def evictExpiredInternal (c : CacheMap) (now : Nat) : CacheMap :=
  c.filter (fun kv => ! kv.2.isExpired now)

/-- Model of `CacheManager::set` from cache.rs: on capacity pressure sweep expired
entries, then (if still full) remove the first key the map yields, then
insert the new entry with `created_at = now` and the default TTL. -/
def cacheSet (c : CacheMap) (max_entries default_ttl : Nat) (key : String)
    (body : List Nat) (status : Nat) (headers : List (String × String))
    (now : Nat) : CacheMap :=
  let c1 :=
    if c.length ≥ max_entries then
      let cs := evictExpiredInternal c now
      if cs.length ≥ max_entries then cs.drop 1 else cs
    else c
  cacheInsert c1 key
    { response_body := body, status := status, headers := headers,
      created_at := now, ttl_seconds := default_ttl }

/-- One `CacheManager::set` call (its arguments). -/
structure SetOp where
  key : String
  body : List Nat
  status : Nat
  headers : List (String × String)
  now : Nat
deriving DecidableEq, Repr

/-- A sequence of `set` calls applied to a cache map. -/
def applySets (max_entries default_ttl : Nat) (c : CacheMap) (ops : List SetOp) :
    CacheMap :=
  ops.foldl (fun c op => cacheSet c max_entries default_ttl op.key op.body op.status op.headers op.now) c

theorem cacheInsert_length (c : CacheMap) (k : String) (e : CacheEntry) :
    (cacheInsert c k e).length ≤ c.length + 1 := by
  unfold cacheInsert
  split
  · simp
  · simp

theorem cacheSet_length_le {c : CacheMap} {max_entries : Nat}
    (hmax : 1 ≤ max_entries) (hc : c.length ≤ max_entries)
    (default_ttl : Nat) (key : String) (body : List Nat) (status : Nat)
    (headers : List (String × String)) (now : Nat) :
    (cacheSet c max_entries default_ttl key body status headers now).length ≤ max_entries := by
  unfold cacheSet
  dsimp only
  split
  · rename_i hfull
    have hev : (evictExpiredInternal c now).length ≤ c.length := by
      unfold evictExpiredInternal
      exact List.length_filter_le _ _
    split
    · rename_i hstill
      have h1 : ((evictExpiredInternal c now).drop 1).length
          = (evictExpiredInternal c now).length - 1 := by
        simp
      have := cacheInsert_length ((evictExpiredInternal c now).drop 1) key
        { response_body := body, status := status, headers := headers,
          created_at := now, ttl_seconds := default_ttl }
      omega
    · rename_i hnot
      have := cacheInsert_length (evictExpiredInternal c now) key
        { response_body := body, status := status, headers := headers,
          created_at := now, ttl_seconds := default_ttl }
      omega
  · rename_i hnotfull
    have := cacheInsert_length c key
      { response_body := body, status := status, headers := headers,
        created_at := now, ttl_seconds := default_ttl }
    omega

theorem applySets_length_le {max_entries : Nat} (hmax : 1 ≤ max_entries)
    (default_ttl : Nat) (ops : List SetOp) (c : CacheMap) (hc : c.length ≤ max_entries) :
    (applySets max_entries default_ttl c ops).length ≤ max_entries := by
  induction ops generalizing c with
  | nil => simpa [applySets] using hc
  | cons op rest ih =>
    have hstep := cacheSet_length_le hmax hc default_ttl op.key op.body op.status op.headers op.now
    simpa [applySets, List.foldl_cons] using ih _ hstep

/-! ## stats.rs -/

/-- Model of `RequestLog` from stats.rs (the f64 `cost` field is omitted). -/
structure RequestLog where
  id : String
  timestamp : Nat
  provider : String
  model : String
  status : Nat
  duration_ms : Nat
  input_tokens : Nat
  output_tokens : Nat
  path : String
  client_agent : String
  api_type : String
  cached : Bool
  error_message : Option String
deriving DecidableEq, Repr

/-- Model of `ProviderStats` from stats.rs.  The f64 aggregates (`avg_latency_ms`,
`p50/p95/p99`, `total_cost`) are floating-point and omitted; the integer
`latency_samples` deque that feeds them is kept. -/
structure ProviderStats where
  provider_id : String
  provider_name : String
  total_requests : Nat
  successful_requests : Nat
  failed_requests : Nat
  total_input_tokens : Nat
  total_output_tokens : Nat
  last_success_at : Option Nat
  last_failure_at : Option Nat
  last_error_message : Option String
  consecutive_failures : Nat
  is_healthy : Bool
  latency_samples : List Nat
deriving DecidableEq, Repr

/-- Model of `ProviderStats::new`. -/
def ProviderStats.new (id name : String) : ProviderStats :=
  { provider_id := id, provider_name := name, total_requests := 0,
    successful_requests := 0, failed_requests := 0, total_input_tokens := 0,
    total_output_tokens := 0, last_success_at := none, last_failure_at := none,
    last_error_message := none, consecutive_failures := 0, is_healthy := true,
    latency_samples := [] }

/-- Model of `ProviderStats::record_request` from stats.rs.  Counters wrap at the
u64 bound (release-mode Rust) and `consecutive_failures` at the u32 bound;
the f64 `cost` accumulation and the derived latency aggregates are
omitted, while the 100-slot FIFO sample buffer is kept. -/
def ProviderStats.record_request (s : ProviderStats) (success : Bool)
    (latency_ms input_tokens output_tokens timestamp : Nat)
    (error_msg : Option String) : ProviderStats :=
  let s := { s with total_requests := (s.total_requests + 1) % u64Lim }
  let s :=
    if success then
      let s := { s with
        successful_requests := (s.successful_requests + 1) % u64Lim,
        last_success_at := some timestamp,
        consecutive_failures := 0,
        is_healthy := true }
      let samples := s.latency_samples ++ [latency_ms]
      let samples := if samples.length > 100 then samples.drop 1 else samples
      { s with latency_samples := samples }
    else
      let s := { s with
        failed_requests := (s.failed_requests + 1) % u64Lim,
        last_failure_at := some timestamp,
        last_error_message := error_msg,
        consecutive_failures := (s.consecutive_failures + 1) % u32Lim }
      if 3 ≤ s.consecutive_failures then { s with is_healthy := false } else s
  { s with total_input_tokens := (s.total_input_tokens + input_tokens) % u64Lim,
           total_output_tokens := (s.total_output_tokens + output_tokens) % u64Lim }

/-- The arguments of one `ProviderStats::record_request` call. -/
structure RecordedRequest where
  success : Bool
  latency_ms : Nat
  input_tokens : Nat
  output_tokens : Nat
  timestamp : Nat
  error_msg : Option String
deriving DecidableEq, Repr

/-- A sequence of `record_request` calls for one provider. -/
def recordSeq (s : ProviderStats) (rs : List RecordedRequest) : ProviderStats :=
  rs.foldl (fun s r =>
    s.record_request r.success r.latency_ms r.input_tokens r.output_tokens
      r.timestamp r.error_msg) s

theorem record_request_fail_cf (s : ProviderStats) (r : RecordedRequest)
    (hr : r.success = false) (hov : s.consecutive_failures + 1 < u32Lim) :
    (s.record_request r.success r.latency_ms r.input_tokens r.output_tokens
        r.timestamp r.error_msg).consecutive_failures = s.consecutive_failures + 1 ∧
    (s.record_request r.success r.latency_ms r.input_tokens r.output_tokens
        r.timestamp r.error_msg).is_healthy =
      (if 3 ≤ s.consecutive_failures + 1 then false else s.is_healthy) := by
  have hmod : (s.consecutive_failures + 1) % u32Lim = s.consecutive_failures + 1 :=
    Nat.mod_eq_of_lt hov
  simp only [ProviderStats.record_request, hr, Bool.false_eq_true, if_false, hmod]
  split <;> simp

theorem record_request_success_health (s : ProviderStats) (r : RecordedRequest)
    (hr : r.success = true) :
    (s.record_request r.success r.latency_ms r.input_tokens r.output_tokens
        r.timestamp r.error_msg).is_healthy = true ∧
    (s.record_request r.success r.latency_ms r.input_tokens r.output_tokens
        r.timestamp r.error_msg).consecutive_failures = 0 := by
  simp only [ProviderStats.record_request, hr, if_true]
  constructor <;> simp

theorem recordSeq_failures (rs : List RecordedRequest) (s : ProviderStats)
    (hfail : ∀ r ∈ rs, r.success = false)
    (hov : s.consecutive_failures + rs.length < u32Lim) :
    (recordSeq s rs).consecutive_failures = s.consecutive_failures + rs.length ∧
    (1 ≤ rs.length → 3 ≤ s.consecutive_failures + rs.length →
      (recordSeq s rs).is_healthy = false) := by
  induction rs generalizing s with
  | nil => simp [recordSeq]
  | cons r rest ih =>
    have hr : r.success = false := hfail r (List.mem_cons_self r rest)
    have hov1 : s.consecutive_failures + 1 < u32Lim := by
      simp only [List.length_cons] at hov; omega
    obtain ⟨hcf, hhl⟩ := record_request_fail_cf s r hr hov1
    set s1 := s.record_request r.success r.latency_ms r.input_tokens
      r.output_tokens r.timestamp r.error_msg with hs1
    have hrest : ∀ x ∈ rest, x.success = false := fun x hx =>
      hfail x (List.mem_cons_of_mem r hx)
    have hov2 : s1.consecutive_failures + rest.length < u32Lim := by
      rw [hcf]; simp only [List.length_cons] at hov; omega
    obtain ⟨ihcf, ihhl⟩ := ih s1 hrest hov2
    have hfold : recordSeq s (r :: rest) = recordSeq s1 rest := by
      simp [recordSeq, List.foldl_cons]
    constructor
    · rw [hfold, ihcf, hcf]; simp [List.length_cons]; omega
    · intro _ h3
      rcases rest with _ | ⟨x, xs⟩
      · rw [hfold]
        simp only [recordSeq, List.foldl_nil]
        rw [hhl]
        simp only [List.length_cons, List.length_nil] at h3
        have h31 : 3 ≤ s.consecutive_failures + 1 := by omega
        simp [h31]
      · rw [hfold]
        apply ihhl
        · simp
        · rw [hcf]
          simp only [List.length_cons] at h3 ⊢
          omega

/-- C6: after the third (or any later) consecutive failed request the
provider is unhealthy, and one subsequent successful request makes it
healthy again with zero consecutive failures.  Stated for any starting
stats state followed by at least three consecutive failures, under the
(always true in a real run) side condition that the u32 failure counter
does not wrap. -/
theorem C6_consecutive_failures (s : ProviderStats) (fs : List RecordedRequest)
    (hlen : 3 ≤ fs.length) (hfail : ∀ r ∈ fs, r.success = false)
    (hov : s.consecutive_failures + fs.length < u32Lim) :
    (recordSeq s fs).is_healthy = false ∧
      ∀ r : RecordedRequest, r.success = true →
        ((recordSeq s fs).record_request r.success r.latency_ms r.input_tokens
            r.output_tokens r.timestamp r.error_msg).is_healthy = true ∧
        ((recordSeq s fs).record_request r.success r.latency_ms r.input_tokens
            r.output_tokens r.timestamp r.error_msg).consecutive_failures = 0 := by
  obtain ⟨_, hhl⟩ := recordSeq_failures fs s hfail hov
  refine ⟨hhl (by omega) (by omega), ?_⟩
  intro r hr
  exact record_request_success_health (recordSeq s fs) r hr

/-- Witness for C6: a fresh provider, three concrete failures, then one
concrete success. -/
theorem C6_consecutive_failures_witness :
    (recordSeq (ProviderStats.new "p1" "P")
        [{ success := false, latency_ms := 0, input_tokens := 0, output_tokens := 0,
           timestamp := 1, error_msg := some "HTTP 500" },
         { success := false, latency_ms := 0, input_tokens := 0, output_tokens := 0,
           timestamp := 2, error_msg := some "HTTP 500" },
         { success := false, latency_ms := 0, input_tokens := 0, output_tokens := 0,
           timestamp := 3, error_msg := some "HTTP 500" }]).is_healthy = false ∧
    ((recordSeq (ProviderStats.new "p1" "P")
        [{ success := false, latency_ms := 0, input_tokens := 0, output_tokens := 0,
           timestamp := 1, error_msg := some "HTTP 500" },
         { success := false, latency_ms := 0, input_tokens := 0, output_tokens := 0,
           timestamp := 2, error_msg := some "HTTP 500" },
         { success := false, latency_ms := 0, input_tokens := 0, output_tokens := 0,
           timestamp := 3, error_msg := some "HTTP 500" }]).record_request true 42 1 1 4
        none).is_healthy = true := by
  refine ⟨(C6_consecutive_failures (ProviderStats.new "p1" "P") _ (by decide)
    (by decide) (by decide)).1, ?_⟩
  have h := (C6_consecutive_failures (ProviderStats.new "p1" "P")
    [{ success := false, latency_ms := 0, input_tokens := 0, output_tokens := 0,
       timestamp := 1, error_msg := some "HTTP 500" },
     { success := false, latency_ms := 0, input_tokens := 0, output_tokens := 0,
       timestamp := 2, error_msg := some "HTTP 500" },
     { success := false, latency_ms := 0, input_tokens := 0, output_tokens := 0,
       timestamp := 3, error_msg := some "HTTP 500" }] (by decide) (by decide)
    (by decide)).2
      { success := true, latency_ms := 42, input_tokens := 1, output_tokens := 1,
        timestamp := 4, error_msg := none } rfl
  exact h.1

/-- Model of `HourlyStat` from stats.rs (f64 `cost` omitted). -/
structure HourlyStat where
  timestamp : Nat
  requests : Nat
  input_tokens : Nat
  output_tokens : Nat
deriving DecidableEq, Repr

/-- The hour bucket key `(timestamp / 3600) * 3600` used by
`StatsManager::record_request`. -/
def hourFloor (t : Nat) : Nat := t / 3600 * 3600

/-- The in-place bump of the last hour bucket performed by
`StatsManager::record_request` when the hour matches (u32 counters wrap). -/
def bumpBucket (last : HourlyStat) (l : RequestLog) : HourlyStat :=
  { last with
    requests := (last.requests + 1) % u32Lim,
    input_tokens := (last.input_tokens + l.input_tokens) % u32Lim,
    output_tokens := (last.output_tokens + l.output_tokens) % u32Lim }

/-- The fresh hour bucket pushed by `StatsManager::record_request` when
the hour of the log differs from the last bucket. -/
def newBucket (l : RequestLog) : HourlyStat :=
  { timestamp := hourFloor l.timestamp, requests := 1,
    input_tokens := l.input_tokens, output_tokens := l.output_tokens }

/-- The match-or-push part of the `hourly_activity` update in
`StatsManager::record_request` (stats.rs). -/
def hourlyStep (ha : List HourlyStat) (l : RequestLog) : List HourlyStat :=
  match ha.getLast? with
  | some last =>
      if last.timestamp = hourFloor l.timestamp then
        ha.dropLast ++ [bumpBucket last l]
      else
        ha ++ [newBucket l]
  | none => [newBucket l]

/-- The `hourly_activity` update of `StatsManager::record_request`
(stats.rs): bump the last bucket when its timestamp matches the hour of
the log, else push a new bucket; then drop the oldest bucket once the
length exceeds 24. -/
def updateHourlyActivity (ha : List HourlyStat) (l : RequestLog) : List HourlyStat :=
  if (hourlyStep ha l).length > 24 then (hourlyStep ha l).drop 1 else hourlyStep ha l

/-- The `hourly_activity` list after a sequence of
`StatsManager::record_request` calls, starting from the default empty
stats document. -/
def hourlyAfter (logs : List RequestLog) : List HourlyStat :=
  logs.foldl updateHourlyActivity []

theorem hourlyStep_length (ha : List HourlyStat) (l : RequestLog) :
    (hourlyStep ha l).length ≤ ha.length + 1 := by
  unfold hourlyStep
  rcases hlast : ha.getLast? with _ | last
  · simp
  · obtain ⟨init, hinit⟩ := List.getLast?_eq_some_iff.mp hlast
    simp only
    split
    · subst hinit; simp
    · simp

theorem updateHourlyActivity_length {ha : List HourlyStat} (l : RequestLog)
    (h : ha.length ≤ 24) : (updateHourlyActivity ha l).length ≤ 24 := by
  have hs := hourlyStep_length ha l
  unfold updateHourlyActivity
  split <;> rename_i h1
  · rw [List.length_drop]
    omega
  · omega

theorem hourlyStep_ts_mem {ha : List HourlyStat} {l : RequestLog}
    {b : HourlyStat} (hb : b ∈ hourlyStep ha l) :
    b.timestamp ∈ ha.map HourlyStat.timestamp ∨ b.timestamp = hourFloor l.timestamp := by
  unfold hourlyStep at hb
  rcases hlast : ha.getLast? with _ | last
  · rw [hlast] at hb
    simp only [List.mem_singleton] at hb
    right; rw [hb]; rfl
  · rw [hlast] at hb
    simp only at hb
    have hmem : last ∈ ha := List.mem_of_getLast?_eq_some hlast
    split at hb
    · rcases List.mem_append.mp hb with h2 | h2
      · left
        exact List.mem_map_of_mem HourlyStat.timestamp
          ((List.dropLast_sublist ha).mem h2)
      · simp only [List.mem_singleton] at h2
        left
        rw [h2]
        show (bumpBucket last l).timestamp ∈ _
        have hbts : (bumpBucket last l).timestamp = last.timestamp := rfl
        rw [hbts]
        exact List.mem_map_of_mem HourlyStat.timestamp hmem
    · rcases List.mem_append.mp hb with h2 | h2
      · left; exact List.mem_map_of_mem HourlyStat.timestamp h2
      · simp only [List.mem_singleton] at h2
        right; rw [h2]; rfl

theorem updateHourlyActivity_ts_mem {ha : List HourlyStat} {l : RequestLog}
    {b : HourlyStat} (hb : b ∈ updateHourlyActivity ha l) :
    b.timestamp ∈ ha.map HourlyStat.timestamp ∨ b.timestamp = hourFloor l.timestamp := by
  unfold updateHourlyActivity at hb
  split at hb
  · exact hourlyStep_ts_mem (List.mem_of_mem_drop hb)
  · exact hourlyStep_ts_mem hb

theorem hourlyStep_sorted {ha : List HourlyStat} {l : RequestLog}
    (hsorted : (ha.map HourlyStat.timestamp).Pairwise (· < ·))
    (hbound : ∀ b ∈ ha, b.timestamp ≤ hourFloor l.timestamp) :
    ((hourlyStep ha l).map HourlyStat.timestamp).Pairwise (· < ·) := by
  unfold hourlyStep
  rcases hlast : ha.getLast? with _ | last
  · simp
  · obtain ⟨init, hinit⟩ := List.getLast?_eq_some_iff.mp hlast
    simp only
    split
    · rename_i heq
      have hmap : (ha.dropLast ++ [bumpBucket last l]).map HourlyStat.timestamp
          = ha.map HourlyStat.timestamp := by
        rw [hinit]
        simp [bumpBucket]
      rw [hmap]
      exact hsorted
    · rename_i hne
      rw [List.map_append, List.pairwise_append]
      refine ⟨hsorted, by simp, ?_⟩
      intro x hx y hy
      simp only [List.map_cons, List.map_nil, List.mem_singleton] at hy
      subst hy
      show x < (newBucket l).timestamp
      have hnts : (newBucket l).timestamp = hourFloor l.timestamp := rfl
      rw [hnts]
      obtain ⟨bx, hbx, hbxts⟩ := List.mem_map.mp hx
      subst hbxts
      have hle : bx.timestamp ≤ hourFloor l.timestamp := hbound bx hbx
      rcases Nat.lt_or_ge bx.timestamp (hourFloor l.timestamp) with hlt | hge
      · exact hlt
      · exfalso
        have hbxeq : bx.timestamp = hourFloor l.timestamp := by omega
        rw [hinit] at hbx
        rcases List.mem_append.mp hbx with h2 | h2
        · rw [hinit, List.map_append, List.pairwise_append] at hsorted
          have := hsorted.2.2 bx.timestamp
            (List.mem_map_of_mem HourlyStat.timestamp h2) last.timestamp (by simp)
          have hlastle : last.timestamp ≤ hourFloor l.timestamp :=
            hbound last (List.mem_of_getLast?_eq_some hlast)
          omega
        · simp only [List.mem_singleton] at h2
          rw [h2] at hbxeq
          exact hne hbxeq

theorem updateHourlyActivity_sorted {ha : List HourlyStat} {l : RequestLog}
    (hsorted : (ha.map HourlyStat.timestamp).Pairwise (· < ·))
    (hbound : ∀ b ∈ ha, b.timestamp ≤ hourFloor l.timestamp) :
    ((updateHourlyActivity ha l).map HourlyStat.timestamp).Pairwise (· < ·) ∧
      ∀ b ∈ updateHourlyActivity ha l, b.timestamp ≤ hourFloor l.timestamp := by
  constructor
  · have hmain := hourlyStep_sorted hsorted hbound
    unfold updateHourlyActivity
    split
    · rw [List.map_drop]
      exact List.Pairwise.sublist (List.drop_sublist 1 _) hmain
    · exact hmain
  · intro b hb
    rcases updateHourlyActivity_ts_mem hb with hmem | heq
    · obtain ⟨bx, hbx, hts⟩ := List.mem_map.mp hmem
      rw [← hts]
      exact hbound bx hbx
    · omega

theorem hourFloor_mono {a b : Nat} (h : a ≤ b) : hourFloor a ≤ hourFloor b :=
  Nat.mul_le_mul_right _ (Nat.div_le_div_right h)

theorem hourlyFold (logs : List RequestLog) (ha : List HourlyStat)
    (hlen : ha.length ≤ 24)
    (hsorted : (ha.map HourlyStat.timestamp).Pairwise (· < ·))
    (hbound : ∀ b ∈ ha, ∀ l ∈ logs, b.timestamp ≤ hourFloor l.timestamp)
    (hmono : (logs.map RequestLog.timestamp).Pairwise (· ≤ ·)) :
    (logs.foldl updateHourlyActivity ha).length ≤ 24 ∧
      ((logs.foldl updateHourlyActivity ha).map HourlyStat.timestamp).Pairwise (· < ·) ∧
      ∀ b ∈ logs.foldl updateHourlyActivity ha,
        b.timestamp ∈ ha.map HourlyStat.timestamp ∨
          ∃ l ∈ logs, b.timestamp = hourFloor l.timestamp := by
  induction logs generalizing ha with
  | nil =>
    refine ⟨hlen, hsorted, ?_⟩
    intro b hb
    exact Or.inl (List.mem_map_of_mem HourlyStat.timestamp hb)
  | cons l rest ih =>
    simp only [List.foldl_cons]
    have hb1 : ∀ b ∈ ha, b.timestamp ≤ hourFloor l.timestamp := fun b hb =>
      hbound b hb l (List.mem_cons_self l rest)
    obtain ⟨hsorted1, hbound1⟩ := updateHourlyActivity_sorted hsorted hb1
    have hlen1 := @updateHourlyActivity_length ha l hlen
    simp only [List.map_cons, List.pairwise_cons] at hmono
    have hbound2 : ∀ b ∈ updateHourlyActivity ha l, ∀ l2 ∈ rest,
        b.timestamp ≤ hourFloor l2.timestamp := by
      intro b hb l2 hl2
      have h1 : b.timestamp ≤ hourFloor l.timestamp := hbound1 b hb
      have h2 : l.timestamp ≤ l2.timestamp :=
        hmono.1 l2.timestamp (List.mem_map_of_mem RequestLog.timestamp hl2)
      exact h1.trans (hourFloor_mono h2)
    obtain ⟨ih1, ih2, ih3⟩ := ih (updateHourlyActivity ha l) hlen1 hsorted1 hbound2 hmono.2
    refine ⟨ih1, ih2, ?_⟩
    intro b hb
    rcases ih3 b hb with hmem | ⟨l2, hl2, hts⟩
    · obtain ⟨bx, hbx, hbxts⟩ := List.mem_map.mp hmem
      rcases updateHourlyActivity_ts_mem hbx with hmem2 | heq
      · left; rw [← hbxts]; exact hmem2
      · right; exact ⟨l, List.mem_cons_self l rest, by rw [← hbxts]; exact heq⟩
    · right; exact ⟨l2, List.mem_cons_of_mem l hl2, hts⟩

/-- A log used by the C9 counterexample, with the given timestamp. -/
def c9log (ts : Nat) : RequestLog :=
  { id := "", timestamp := ts, provider := "P", model := "m", status := 200,
    duration_ms := 1, input_tokens := 0, output_tokens := 0,
    path := "/v1/messages", client_agent := "ua", api_type := "anthropic",
    cached := false, error_message := none }

/-- C9 (counterexample): with the log timestamps 3600, 7200, 3600 (the
claim allows arbitrary timestamps) the hourly buckets end up as
[3600, 7200, 3600] — neither distinct nor strictly increasing, because
the code only compares a log against the last bucket. -/
theorem C9_counterexample :
    (hourlyAfter [c9log 3600, c9log 7200, c9log 3600]).map HourlyStat.timestamp
        = [3600, 7200, 3600] ∧
      ¬ ((hourlyAfter [c9log 3600, c9log 7200, c9log 3600]).map
          HourlyStat.timestamp).Pairwise (· < ·) := by
  constructor
  · decide
  · decide

/-- C9 (amended): after any sequence of record_request calls,
hourly_activity has at most 24 entries and each entry timestamp is
(log.timestamp/3600)*3600 for some recorded log; when the recorded log
timestamps are non-decreasing (they are wall-clock times in the code),
the bucket timestamps are strictly increasing, hence distinct. -/
theorem C9_hourly_activity (logs : List RequestLog)
    (hmono : (logs.map RequestLog.timestamp).Pairwise (· ≤ ·)) :
    (hourlyAfter logs).length ≤ 24 ∧
      (∀ b ∈ hourlyAfter logs, ∃ l ∈ logs, b.timestamp = hourFloor l.timestamp) ∧
      ((hourlyAfter logs).map HourlyStat.timestamp).Pairwise (· < ·) := by
  obtain ⟨h1, h2, h3⟩ := hourlyFold logs [] (by simp) (by simp) (by simp) hmono
  refine ⟨h1, ?_, h2⟩
  intro b hb
  rcases h3 b hb with hmem | hex
  · simp at hmem
  · exact hex

/-- Witness for C9: two monotone concrete logs give sorted buckets. -/
theorem C9_hourly_activity_witness :
    (hourlyAfter [c9log 10, c9log 3700]).length ≤ 24 ∧
      ((hourlyAfter [c9log 10, c9log 3700]).map HourlyStat.timestamp).Pairwise
        (· < ·) :=
  ⟨(C9_hourly_activity [c9log 10, c9log 3700] (by decide)).1,
   (C9_hourly_activity [c9log 10, c9log 3700] (by decide)).2.2⟩

/-- A provider used by the C1 counterexample: weight 1, listed first. -/
def c1ProvA : Provider :=
  { id := "a", name := "A", base_url := "https://a", api_key := "",
    model_mapping := [], enabled := true, api_types := [ApiType.Anthropic],
    weight := 1, claude_code_proxy := false }

/-- A provider used by the C1 counterexample: weight 2, listed second. -/
def c1ProvB : Provider :=
  { id := "b", name := "B", base_url := "https://b", api_key := "",
    model_mapping := [], enabled := true, api_types := [ApiType.Anthropic],
    weight := 2, claude_code_proxy := false }

/-- A gateway configuration holding the two C1 providers in order A, B. -/
def c1Config : GatewayConfig :=
  { anthropic_port := 12345, responses_port := 12346, chat_port := 12347,
    anthropic_enabled := true, responses_enabled := true, chat_enabled := true,
    port := 0, enabled := true, providers := [c1ProvA, c1ProvB],
    fallback_enabled := true, cache_enabled := true, cache_ttl_seconds := 600,
    cache_max_entries := 1000, circuit_breaker_cooldown_seconds := 60 }

/-- Lookup in an association-list model of a concurrent/hash map
(first matching key). -/
def assocGet {α : Type} : List (String × α) → String → Option α
  | [], _ => none
  | kv :: rest, k => if kv.1 = k then some kv.2 else assocGet rest k

/-- Model of `DashMap::insert`: replace the value of an existing key, else add. -/
def assocInsert {α : Type} (m : List (String × α)) (k : String) (v : α) :
    List (String × α) :=
  if m.any (fun kv => kv.1 = k) then
    m.map (fun kv => if kv.1 = k then (k, v) else kv)
  else
    m ++ [(k, v)]

/-- Model of `DashMap::remove`. -/
def assocRemove {α : Type} (m : List (String × α)) (k : String) :
    List (String × α) :=
  m.filter (fun kv => kv.1 ≠ k)

/-! ## converter.rs: JSON model (serde_json values) -/

/-- The numeric variants of a serde_json number: non-negative integers,
negative integers, and floats (floats modelled as exact rationals; the
claims treated here never exercise rounding). -/
inductive JNumber where
  | uint (n : Nat)
  | int (i : Int)
  | float (q : Rat)
deriving DecidableEq, Repr

/-- A serde_json `Value`.  Objects are association lists with unique keys
(duplicate keys in the source text keep the last occurrence, as serde
does). -/
inductive Json where
  | null
  | bool (b : Bool)
  | num (n : JNumber)
  | str (s : String)
  | arr (elems : List Json)
  | obj (fields : List (String × Json))

/-- Model of `Value::get` with a string key: object-field lookup. -/
def Json.get? : Json → String → Option Json
  | Json.obj fields, k => assocGet fields k
  | _, _ => none

/-- Model of `Value::as_str`. -/
def Json.asStr : Json → Option String
  | Json.str s => some s
  | _ => none

/-- Model of `Value::as_bool`. -/
def Json.asBool : Json → Option Bool
  | Json.bool b => some b
  | _ => none

/-- Model of `Value::as_array`. -/
def Json.asArray : Json → Option (List Json)
  | Json.arr xs => some xs
  | _ => none

/-- Model of `Value::as_u64`: only a non-negative integer number. -/
def Json.asU64 : Json → Option Nat
  | Json.num (JNumber.uint n) => some n
  | _ => none

/-- Model of `Value::as_f64`: any number, as a rational. -/
def Json.asF64 : Json → Option Rat
  | Json.num (JNumber.uint n) => some (n : Rat)
  | Json.num (JNumber.int i) => some (i : Rat)
  | Json.num (JNumber.float q) => some q
  | _ => none

/-! ### A JSON parser modelling `serde_json::from_str` / `from_slice`
(recursive descent with explicit fuel; exponent notation is not
modelled — no input treated here uses it). -/

/-- Drop leading JSON whitespace. -/
def skipWs (cs : List Char) : List Char :=
  cs.dropWhile (fun c => c == ' ' || c == '\n' || c == '\t' || c == '\r')

/-- Value of a decimal digit character. -/
def digitVal (c : Char) : Nat := c.toNat - '0'.toNat

/-- Natural number denoted by a digit string. -/
def natFromDigits (ds : List Char) : Nat :=
  ds.foldl (fun acc c => acc * 10 + digitVal c) 0

/-- Value of a hexadecimal digit character. -/
def hexVal (c : Char) : Option Nat :=
  if c.isDigit then some (digitVal c)
  else if 'a' ≤ c && c ≤ 'f' then some (10 + c.toNat - 'a'.toNat)
  else if 'A' ≤ c && c ≤ 'F' then some (10 + c.toNat - 'A'.toNat)
  else none

/-- Parse the body of a JSON string literal (after the opening quote),
returning its characters and the remaining input. -/
def parseStringAux : Nat → List Char → Option (List Char × List Char)
  | 0, _ => none
  | _ + 1, [] => none
  | fuel + 1, c :: rest =>
    if c = '"' then some ([], rest)
    else if c = '\\' then
      match rest with
      | [] => none
      | e :: rest2 =>
        let esc : Option (Char × List Char) :=
          if e = '"' then some ('"', rest2)
          else if e = '\\' then some ('\\', rest2)
          else if e = '/' then some ('/', rest2)
          else if e = 'n' then some ('\n', rest2)
          else if e = 't' then some ('\t', rest2)
          else if e = 'r' then some ('\r', rest2)
          else if e = 'b' then some ('\x08', rest2)
          else if e = 'f' then some ('\x0c', rest2)
          else if e = 'u' then
            match rest2 with
            | h1 :: h2 :: h3 :: h4 :: rest3 =>
              match hexVal h1, hexVal h2, hexVal h3, hexVal h4 with
              | some a, some b, some c2, some d =>
                some (Char.ofNat (((a * 16 + b) * 16 + c2) * 16 + d), rest3)
              | _, _, _, _ => none
            | _ => none
          else none
        match esc with
        | some (ch, rest3) =>
          (parseStringAux fuel rest3).map (fun sr => (ch :: sr.1, sr.2))
        | none => none
    else (parseStringAux fuel rest).map (fun sr => (c :: sr.1, sr.2))

/-- Parse a JSON number (integer or decimal fraction). -/
def parseNumber (cs : List Char) : Option (Json × List Char) :=
  let neg := match cs with
    | '-' :: _ => true
    | _ => false
  let cs1 := if neg then cs.drop 1 else cs
  let ds := cs1.takeWhile Char.isDigit
  let rest := cs1.dropWhile Char.isDigit
  if ds.isEmpty then none
  else
    match rest with
    | '.' :: rest2 =>
      let fs := rest2.takeWhile Char.isDigit
      let rest3 := rest2.dropWhile Char.isDigit
      if fs.isEmpty then none
      else
        let q : Rat := (natFromDigits ds : Rat) +
          (natFromDigits fs : Rat) / ((10 : Rat) ^ fs.length)
        some (Json.num (JNumber.float (if neg then -q else q)), rest3)
    | _ =>
      if neg then some (Json.num (JNumber.int (-(natFromDigits ds : Int))), rest)
      else some (Json.num (JNumber.uint (natFromDigits ds)), rest)

mutual

/-- Parse one JSON value. -/
def parseValue : Nat → List Char → Option (Json × List Char)
  | 0, _ => none
  | fuel + 1, cs =>
    match skipWs cs with
    | [] => none
    | c :: rest =>
      if c = '{' then parseObjItems fuel rest []
      else if c = '[' then parseArrItems fuel rest []
      else if c = '"' then
        (parseStringAux (fuel + 1) rest).map (fun sr => (Json.str (String.mk sr.1), sr.2))
      else if c = 't' then
        match rest with
        | 'r' :: 'u' :: 'e' :: r => some (Json.bool true, r)
        | _ => none
      else if c = 'f' then
        match rest with
        | 'a' :: 'l' :: 's' :: 'e' :: r => some (Json.bool false, r)
        | _ => none
      else if c = 'n' then
        match rest with
        | 'u' :: 'l' :: 'l' :: r => some (Json.null, r)
        | _ => none
      else parseNumber (c :: rest)

/-- Parse object members after the opening brace (or after a comma). -/
def parseObjItems : Nat → List Char → List (String × Json) →
    Option (Json × List Char)
  | 0, _, _ => none
  | fuel + 1, cs, acc =>
    match skipWs cs with
    | '"' :: rest =>
      match parseStringAux (fuel + 1) rest with
      | some (key, rest2) =>
        (match skipWs rest2 with
        | ':' :: rest3 =>
          match parseValue fuel rest3 with
          | some (v, rest4) =>
            (let acc2 := assocInsert acc (String.mk key) v
            match skipWs rest4 with
            | ',' :: rest5 => parseObjItems fuel rest5 acc2
            | '}' :: rest5 => some (Json.obj acc2, rest5)
            | _ => none)
          | none => none
        | _ => none)
      | none => none
    | '}' :: rest => if acc.isEmpty then some (Json.obj acc, rest) else none
    | _ => none

/-- Parse array elements after the opening bracket (or after a comma). -/
def parseArrItems : Nat → List Char → List Json → Option (Json × List Char)
  | 0, _, _ => none
  | fuel + 1, cs, acc =>
    match skipWs cs with
    | ']' :: rest => if acc.isEmpty then some (Json.arr acc, rest) else none
    | cs2 =>
      match parseValue fuel cs2 with
      | some (v, rest) =>
        (match skipWs rest with
        | ',' :: rest2 => parseArrItems fuel rest2 (acc ++ [v])
        | ']' :: rest2 => some (Json.arr (acc ++ [v]), rest2)
        | _ => none)
      | none => none

end

/-- Model of `serde_json::from_str`: parse one value, requiring only whitespace to
follow. -/
def parseJson (s : String) : Option Json :=
  match parseValue (2 * s.length + 8) s.data with
  | some (v, rest) => if (skipWs rest).isEmpty then some v else none
  | none => none

/-- Rust `str::trim`, structurally on the character list (ASCII
whitespace, which covers every input treated here). -/
def trimChars (cs : List Char) : List Char :=
  ((cs.dropWhile Char.isWhitespace).reverse.dropWhile Char.isWhitespace).reverse

/-- Rust `str::trim` on strings. -/
def strTrim (s : String) : String := String.mk (trimChars s.data)

/-- Rust `[String]::join(sep)`. -/
def strJoinSep (sep : String) : List String → String
  | [] => ""
  | p :: rest => rest.foldl (fun acc q => acc ++ sep ++ q) p

/-! ## converter.rs: request translation (Anthropic to OpenAI Chat) -/

/-- The `system` handling of `anthropic_to_openai` (converter.rs):
a string system prompt becomes one system message; an array of blocks has
the text fields concatenated with trailing newlines and, when non-empty,
becomes one trimmed system message. -/
def systemMessages (req : Json) : List Json :=
  match req.get? "system" with
  | some v =>
    match v.asStr with
    | some s => [Json.obj [("role", Json.str "system"), ("content", Json.str s)]]
    | none =>
      match v.asArray with
      | some items =>
        let content := items.foldl (fun acc item =>
          match (item.get? "text").bind Json.asStr with
          | some t => acc ++ t ++ "\n"
          | none => acc) ""
        if content.data.isEmpty then []
        else [Json.obj [("role", Json.str "system"), ("content", Json.str (strTrim content))]]
      | none => []
  | none => []

/-- The content-block walk of `anthropic_to_openai` (converter.rs):
text blocks contribute their text; tool_result blocks contribute
"Tool result: " plus each text fragment (string content or array of
blocks); other block types are dropped. -/
def blockFragments (blocks : List Json) : List String :=
  blocks.foldl (fun acc block =>
    match (block.get? "type").bind Json.asStr with
    | some bt =>
      if bt = "text" then
        match (block.get? "text").bind Json.asStr with
        | some t => acc ++ [t]
        | none => acc
      else if bt = "tool_result" then
        match block.get? "content" with
        | some content =>
          match content.asStr with
          | some t => acc ++ ["Tool result: " ++ t]
          | none =>
            match content.asArray with
            | some items =>
              acc ++ items.foldl (fun acc2 item =>
                match (item.get? "text").bind Json.asStr with
                | some t => acc2 ++ ["Tool result: " ++ t]
                | none => acc2) []
            | none => acc
        | none => acc
      else acc
    | none => acc) []

/-- One Anthropic message converted by `anthropic_to_openai`
(converter.rs): role user/assistant preserved (anything else becomes
user); string content passes through; block arrays become the collected
fragments joined with newlines, skipped when empty. -/
def convertMessage (msg : Json) : List Json :=
  let role := ((msg.get? "role").bind Json.asStr).getD "user"
  let openai_role := if role = "user" then "user"
    else if role = "assistant" then "assistant" else "user"
  match msg.get? "content" with
  | some content =>
    match content.asStr with
    | some s => [Json.obj [("role", Json.str openai_role), ("content", Json.str s)]]
    | none =>
      match content.asArray with
      | some blocks =>
        let parts := blockFragments blocks
        if parts.isEmpty then []
        else [Json.obj [("role", Json.str openai_role),
          ("content", Json.str (strJoinSep "\n" parts))]]
      | none => []
  | none => []

/-- The `messages` walk of `anthropic_to_openai` (converter.rs). -/
def anthropicMessages (req : Json) : List Json :=
  match (req.get? "messages").bind Json.asArray with
  | some msgs => msgs.foldl (fun acc m => acc ++ convertMessage m) []
  | none => []

/-- Model of `anthropic_to_openai` from converter.rs, on the request body text:
parse, build the message list, then require a string `model` field
(hard error otherwise — the messages walk itself is total), apply the
model mapping with identity fallback, and fill `max_tokens`,
`temperature`, `stream` from the request with defaults 4096, 1.0,
false.  The serialization step of the source cannot fail and is left as
the structured value. -/
def anthropic_to_openai (body : String) (model_mapping : List (String × String)) :
    Except String Json :=
  match parseJson body with
  | none => Except.error "Failed to parse Anthropic request"
  | some req =>
    match (req.get? "model").bind Json.asStr with
    | none => Except.error "Missing model field in request"
    | some original_model =>
      Except.ok (Json.obj
        [("model", Json.str ((assocGet model_mapping original_model).getD original_model)),
         ("messages", Json.arr (systemMessages req ++ anthropicMessages req)),
         ("max_tokens", Json.num (JNumber.uint
           (((req.get? "max_tokens").bind Json.asU64).getD 4096))),
         ("temperature", Json.num (JNumber.float
           (((req.get? "temperature").bind Json.asF64).getD 1))),
         ("stream", Json.bool (((req.get? "stream").bind Json.asBool).getD false))])

/-- C7: request translation errors exactly when the body has no string
`model` field (a body that fails to parse has none); otherwise the output
model is the mapping entry for the request model when present and the
request model itself otherwise, and `max_tokens`, `temperature`, `stream`
equal the request values when present (4096 when the request value is a
non-negative integer, and so on) and default to 4096, 1.0, and false when
absent. -/
theorem C7_request_translation (body : String) (mapping : List (String × String)) :
    ((anthropic_to_openai body mapping).isOk = true ↔
      ∃ j m, parseJson body = some j ∧ (j.get? "model").bind Json.asStr = some m) ∧
    ∀ j m, parseJson body = some j → (j.get? "model").bind Json.asStr = some m →
      anthropic_to_openai body mapping = Except.ok (Json.obj
        [("model", Json.str ((assocGet mapping m).getD m)),
         ("messages", Json.arr (systemMessages j ++ anthropicMessages j)),
         ("max_tokens", Json.num (JNumber.uint
           (((j.get? "max_tokens").bind Json.asU64).getD 4096))),
         ("temperature", Json.num (JNumber.float
           (((j.get? "temperature").bind Json.asF64).getD 1))),
         ("stream", Json.bool (((j.get? "stream").bind Json.asBool).getD false))]) ∧
      (j.get? "max_tokens" = none →
        ((j.get? "max_tokens").bind Json.asU64).getD 4096 = 4096) ∧
      (∀ n : Nat, j.get? "max_tokens" = some (Json.num (JNumber.uint n)) →
        ((j.get? "max_tokens").bind Json.asU64).getD 4096 = n) ∧
      (j.get? "temperature" = none →
        ((j.get? "temperature").bind Json.asF64).getD 1 = 1) ∧
      (∀ q : Rat, j.get? "temperature" = some (Json.num (JNumber.float q)) →
        ((j.get? "temperature").bind Json.asF64).getD 1 = q) ∧
      (j.get? "stream" = none →
        ((j.get? "stream").bind Json.asBool).getD false = false) ∧
      (∀ b : Bool, j.get? "stream" = some (Json.bool b) →
        ((j.get? "stream").bind Json.asBool).getD false = b) := by
  constructor
  · constructor
    · intro h
      rcases hp : parseJson body with _ | req
      · simp only [anthropic_to_openai, hp] at h
        exact Bool.noConfusion h
      · rcases hm : (req.get? "model").bind Json.asStr with _ | m
        · simp only [anthropic_to_openai, hp, hm] at h
          exact Bool.noConfusion h
        · exact ⟨req, m, rfl, hm⟩
    · rintro ⟨j, m, hj, hm⟩
      simp only [anthropic_to_openai, hj, hm]
      rfl
  · intro j m hj hm
    refine ⟨?_, ?_, ?_, ?_, ?_, ?_, ?_⟩
    · simp only [anthropic_to_openai, hj, hm]
    · intro h; rw [h]; rfl
    · intro n h; rw [h]; rfl
    · intro h; rw [h]; rfl
    · intro q h; rw [h]; rfl
    · intro h; rw [h]; rfl
    · intro b h; rw [h]; rfl

/-- Witness for C7: a concrete minimal body with a string model field
translates successfully. -/
theorem C7_request_translation_witness :
    (anthropic_to_openai "\x7b\"model\":\"m1\"\x7d" []).isOk = true :=
  (C7_request_translation "\x7b\"model\":\"m1\"\x7d" []).1.mpr
    ⟨Json.obj [("model", Json.str "m1")], "m1", rfl, rfl⟩

/-! ## converter.rs: streaming translation (OpenAI SSE to Anthropic SSE) -/

/-- Lowercase hexadecimal digit. -/
def hexDigitChar (n : Nat) : Char :=
  if n < 10 then Char.ofNat ('0'.toNat + n) else Char.ofNat ('a'.toNat + n - 10)

/-- The escaping `serde_json::to_string` applies inside a JSON string:
quote, backslash, the short control escapes, and `\u00XX` for other
control characters. -/
def escapeChar (c : Char) : List Char :=
  if c = '"' then ['\\', '"']
  else if c = '\\' then ['\\', '\\']
  else if c = '\x08' then ['\\', 'b']
  else if c = '\x09' then ['\\', 't']
  else if c = '\x0a' then ['\\', 'n']
  else if c = '\x0c' then ['\\', 'f']
  else if c = '\x0d' then ['\\', 'r']
  else if c.toNat < 0x20 then
    ['\\', 'u', '0', '0', hexDigitChar (c.toNat / 16), hexDigitChar (c.toNat % 16)]
  else [c]

/-- The JSON-escaped text the converter embeds in a `text_delta`:
`serde_json::to_string(content)` with the outer quotes sliced off
(converter.rs). -/
def jsonEscape (s : String) : String := String.mk (s.data.map escapeChar).flatten

/-- The `message_start` event emitted by `openai_sse_to_anthropic`
(converter.rs), with the given message id and model interpolated. -/
def msgStartEvent (message_id model : String) : String :=
  "event: message_start\ndata: \x7b\"type\":\"message_start\",\"message\":\x7b\"id\":\""
    ++ message_id
    ++ "\",\"type\":\"message\",\"role\":\"assistant\",\"content\":[],\"model\":\""
    ++ model
    ++ "\",\"stop_reason\":null,\"stop_sequence\":null,\"usage\":\x7b\"input_tokens\":0,\"output_tokens\":0\x7d\x7d\x7d"

/-- The `content_block_start` event of `openai_sse_to_anthropic`. -/
def cbStartEvent : String :=
  "event: content_block_start\ndata: \x7b\"type\":\"content_block_start\",\"index\":0,\"content_block\":\x7b\"type\":\"text\",\"text\":\"\"\x7d\x7d"

/-- The `content_block_delta` event of `openai_sse_to_anthropic`, with
the already-escaped text interpolated. -/
def cbDeltaEvent (escaped : String) : String :=
  "event: content_block_delta\ndata: \x7b\"type\":\"content_block_delta\",\"index\":0,\"delta\":\x7b\"type\":\"text_delta\",\"text\":\""
    ++ escaped ++ "\"\x7d\x7d"

/-- The `content_block_stop` event (also used by the synthetic closing
trio in proxy.rs, which spells the identical string). -/
def cbStopEvent : String :=
  "event: content_block_stop\ndata: \x7b\"type\":\"content_block_stop\",\"index\":0\x7d"

/-- The `message_delta` event (same string in converter.rs and in the
synthetic trio of proxy.rs). -/
def msgDeltaEvent : String :=
  "event: message_delta\ndata: \x7b\"type\":\"message_delta\",\"delta\":\x7b\"stop_reason\":\"end_turn\",\"stop_sequence\":null\x7d,\"usage\":\x7b\"output_tokens\":0\x7d\x7d"

/-- The `message_stop` event emitted on a terminal finish_reason (and by
the synthetic trio). -/
def msgStopEvent : String :=
  "event: message_stop\ndata: \x7b\"type\":\"message_stop\"\x7d"

/-- The `message_stop` event emitted on the upstream literal
`data: [DONE]` (its data payload is the empty object). -/
def doneMsgStopEvent : String :=
  "event: message_stop\ndata: \x7b\x7d"

/-- The text-delta extraction of `openai_sse_to_anthropic`
(converter.rs): a non-empty `choices[0].delta.content` string appends one
`content_block_delta` event. -/
def deltaEvents (events : List String) (choice : Json) : List String :=
  match (choice.get? "delta").bind (fun d => (d.get? "content").bind Json.asStr) with
  | some content =>
    if content ≠ "" then events ++ [cbDeltaEvent (jsonEscape content)] else events
  | none => events

/-- Model of `openai_sse_to_anthropic` from converter.rs: translate one upstream
`data:` line into zero or more Anthropic events. -/
def openai_sse_to_anthropic (openai_line message_id model : String)
    (is_first : Bool) : List String :=
  if "data: ".data.isPrefixOf openai_line.data then
    let data := String.mk (openai_line.data.drop 6)
    if strTrim data = "[DONE]" then [doneMsgStopEvent]
    else
      match parseJson data with
      | none => []
      | some resp =>
        let events := if is_first then [msgStartEvent message_id model, cbStartEvent]
          else []
        match (resp.get? "choices").bind Json.asArray with
        | some (choice :: _) =>
          match (choice.get? "finish_reason").bind Json.asStr with
          | some fr =>
            if fr = "stop" || fr = "end_turn" || fr = "length" then
              events ++ [cbStopEvent, msgDeltaEvent, msgStopEvent]
            else deltaEvents events choice
          | none => deltaEvents events choice
        | _ => events
  else []

/-- Substring search (Rust `str::contains`). -/
def containsSub (pat : List Char) : List Char → Bool
  | [] => pat.isEmpty
  | c :: t => pat.isPrefixOf (c :: t) || containsSub pat t

/-- Rust `str::contains` on strings. -/
def strContains (s pat : String) : Bool := containsSub pat.data s.data

/-- The mutable state of the SSE translation loop in `handle_request`
(proxy.rs): the `is_first` flag, the `stream_ended` flag, and the events
yielded so far. -/
structure SseState where
  is_first : Bool
  stream_ended : Bool
  out : List String

/-- One line of the SSE translation loop of `handle_request` (proxy.rs):
trim, skip empty lines, translate, clear `is_first` once events have been
produced, and mark the stream ended when an emitted event contains the
substring "message_stop". -/
def processLine (message_id model : String) (st : SseState) (line : String) :
    SseState :=
  let line := strTrim line
  if line.data.isEmpty then st
  else
    let evs := openai_sse_to_anthropic line message_id model st.is_first
    { is_first := if !evs.isEmpty && st.is_first then false else st.is_first,
      stream_ended := st.stream_ended || evs.any (fun e => strContains e "message_stop"),
      out := st.out ++ evs }

/-- The end-of-stream completion of `handle_request` (proxy.rs): when no
emitted event contained "message_stop", append the synthetic
`content_block_stop`, `message_delta`, `message_stop` trio. -/
def convertFinish (st : SseState) : List String :=
  if st.stream_ended then st.out
  else st.out ++ [cbStopEvent, msgDeltaEvent, msgStopEvent]

/-- The whole SSE translation loop of `handle_request` (proxy.rs) over an
upstream line sequence. -/
def convertStream (lines : List String) (message_id model : String) : List String :=
  convertFinish (lines.foldl (processLine message_id model)
    { is_first := true, stream_ended := false, out := [] })

/-- The upstream line sequence of the C2 scenario. -/
def c2Lines : List String :=
  ["data: \x7b\"choices\":[\x7b\"delta\":\x7b\"content\":\"he\"\x7d\x7d]\x7d",
   "data: \x7b\"choices\":[\x7b\"delta\":\x7b\"content\":\"llo\"\x7d\x7d]\x7d",
   "data: \x7b\"choices\":[\x7b\"finish_reason\":\"stop\"\x7d]\x7d",
   "data: [DONE]"]

set_option maxRecDepth 8192 in
/-- C2 (counterexample): on the given upstream sequence the loop emits
eight client events, not the seven the claim lists — the `data: [DONE]`
line that follows the terminal finish_reason is still processed and
yields one more `message_stop`. -/
theorem C2_counterexample :
    convertStream c2Lines "msg_test" "claude-3-5-sonnet-20241022" ≠
      [msgStartEvent "msg_test" "claude-3-5-sonnet-20241022", cbStartEvent,
       cbDeltaEvent "he", cbDeltaEvent "llo", cbStopEvent, msgDeltaEvent,
       msgStopEvent] := by
  intro h
  have h8 : (convertStream c2Lines "msg_test" "claude-3-5-sonnet-20241022").length
      = 8 := rfl
  rw [h] at h8
  exact absurd h8 (by decide)

set_option maxRecDepth 8192 in
/-- C2 (amended): for any fixed message id and model, the upstream
sequence produces exactly message_start, content_block_start,
content_block_delta(he), content_block_delta(llo), content_block_stop,
message_delta, message_stop — followed by one further message_stop from
the `data: [DONE]` line, which is still processed after the terminal
finish_reason (the loop does not stop); no synthetic closing trio is
appended. -/
theorem C2_streaming_translation (message_id model : String) :
    convertStream c2Lines message_id model =
      [msgStartEvent message_id model, cbStartEvent, cbDeltaEvent "he",
       cbDeltaEvent "llo", cbStopEvent, msgDeltaEvent, msgStopEvent,
       doneMsgStopEvent] := by
  have hfold : c2Lines.foldl (processLine message_id model)
      { is_first := true, stream_ended := false, out := [] } =
      { is_first := false,
        stream_ended :=
          (((strContains (msgStartEvent message_id model) "message_stop" || false)
            || false) || true) || true,
        out := [msgStartEvent message_id model, cbStartEvent, cbDeltaEvent "he",
          cbDeltaEvent "llo", cbStopEvent, msgDeltaEvent, msgStopEvent,
          doneMsgStopEvent] } := rfl
  unfold convertStream
  rw [hfold]
  simp [convertFinish]

/-! ## proxy.rs: header construction -/

/-- The per-header forwarding decision of `handle_request` (proxy.rs):
drop `host`, `authorization`, `content-length`; in translation mode also
drop `x-api-key`, `anthropic-version`, `anthropic-beta`.  Header names are
taken already lowercased, as axum normalizes them. -/
def forwardHeader (use_proxy_conversion : Bool) (k : String) : Bool :=
  if k = "host" || k = "authorization" || k = "content-length" then false
  else if use_proxy_conversion &&
      (k = "x-api-key" || k = "anthropic-version" || k = "anthropic-beta") then false
  else true

/-- The upstream header list built by `handle_request` (proxy.rs):
filtered inbound headers, then the auth injection (only when the provider
api_key is non-empty), then `Content-Type: application/json`.  Names are
lowercased as on the wire; `HeaderValue::from_str` is assumed to succeed
(its silent failure is not modelled — all claims here use well-formed
values). -/
def buildUpstreamHeaders (inbound : List (String × String)) (p : Provider)
    (api_type : ApiType) (use_proxy_conversion : Bool) : List (String × String) :=
  let fwd := inbound.filter (fun kv => forwardHeader use_proxy_conversion kv.1)
  let auth :=
    if p.api_key ≠ "" then
      if use_proxy_conversion then
        [("authorization", "Bearer " ++ p.api_key)]
      else
        match api_type with
        | ApiType.Anthropic => [("x-api-key", p.api_key), ("anthropic-version", "2023-06-01")]
        | ApiType.OpenAIResponses => [("authorization", "Bearer " ++ p.api_key)]
        | ApiType.OpenAIChat => [("authorization", "Bearer " ++ p.api_key)]
    else []
  fwd ++ auth ++ [("content-type", "application/json")]

/-- C10: with an empty provider api_key, the gateway adds no auth header:
the upstream header set is exactly the sanitized inbound headers plus the
content-type header, and any authorization, x-api-key or
anthropic-version header that does reach upstream is one the client
itself sent — in both translated and untranslated modes, for every
dialect. -/
theorem C10_no_auth_injection (inbound : List (String × String)) (p : Provider)
    (t : ApiType) (conv : Bool) (hkey : p.api_key = "") :
    buildUpstreamHeaders inbound p t conv =
        inbound.filter (fun kv => forwardHeader conv kv.1) ++
          [("content-type", "application/json")] ∧
      ∀ kv ∈ buildUpstreamHeaders inbound p t conv,
        (kv.1 = "authorization" ∨ kv.1 = "x-api-key" ∨ kv.1 = "anthropic-version") →
          kv ∈ inbound := by
  have hmain : buildUpstreamHeaders inbound p t conv =
      inbound.filter (fun kv => forwardHeader conv kv.1) ++
        [("content-type", "application/json")] := by
    unfold buildUpstreamHeaders
    simp [hkey]
  refine ⟨hmain, ?_⟩
  intro kv hkv hname
  rw [hmain] at hkv
  rcases List.mem_append.mp hkv with h2 | h2
  · exact List.mem_of_mem_filter h2
  · simp only [List.mem_singleton] at h2
    subst h2
    rcases hname with h | h | h <;> simp at h

/-- Witness for C10: a concrete client header set with an empty api_key
provider, untranslated Anthropic mode. -/
theorem C10_no_auth_injection_witness :
    buildUpstreamHeaders [("user-agent", "ua"), ("x-api-key", "client-key")]
        c1ProvA ApiType.Anthropic false =
      [("user-agent", "ua"), ("x-api-key", "client-key"),
       ("content-type", "application/json")] := by
  have hk : c1ProvA.api_key = "" := rfl
  have h := (C10_no_auth_injection [("user-agent", "ua"), ("x-api-key", "client-key")]
    c1ProvA ApiType.Anthropic false hk).1
  rw [h]
  decide

set_option maxRecDepth 4096 in
/-- C8: the error-body capture at the failing input of 499 ASCII
characters followed by a two-byte character: the body is 502 bytes long,
so the code slices the first 500 bytes, which falls inside the two-byte
character — the byte-slice panics (modelled as `none`), so the truncation
is not total as the claim states. -/
theorem C8_truncation_panics :
    truncate_error_body (List.replicate 499 'a' ++ ['\xe9', 'b']) = none := by
  decide

/-! ## proxy.rs: provider walk with circuit breaker -/


/-- The `health_status` map of proxy.rs: provider id to epoch seconds of
the last recorded failure. -/
abbrev HealthMap := List (String × Nat)

/-- The `provider_stats` map of `GatewayStats`, keyed by provider name. -/
abbrev StatsMap := List (String × ProviderStats)

/-- The circuit breaker check of `handle_request` (proxy.rs):
a provider is skipped when `now - last_failure < cooldown` (u64
subtraction). -/
def inCooldown (h : HealthMap) (id : String) (now cooldown : Nat) : Bool :=
  match assocGet h id with
  | some lf => u64Sub now lf < cooldown
  | none => false

/-- Model of `StatsManager::reset_provider_health` (stats.rs): set the provider
entry healthy with zero consecutive failures, if present. -/
def reset_provider_health (s : StatsMap) (name : String) : StatsMap :=
  s.map (fun kv =>
    if kv.1 = name then
      (kv.1, { kv.2 with is_healthy := true, consecutive_failures := 0 })
    else kv)

/-- What the upstream did for one attempted provider: a transport error,
or an HTTP response with the given status. -/
inductive UpstreamOutcome where
  | connFailure
  | response (status : Nat)
deriving DecidableEq, Repr

/-- The provider loop of `handle_request` (proxy.rs), walking candidates
paired with their would-be upstream outcomes.  It returns the forwarded
providers in order, each with the health-map entry seen at its circuit
breaker check.  A provider in cooldown is skipped; a fallback-classified
response (or a connection failure) with fallback enabled records the
failure at `now` and continues; any other response returns to the client
(ending the walk), as does a connection failure with fallback disabled. -/
def walkAux : List (Provider × UpstreamOutcome) → HealthMap → Bool → Nat → Nat →
    List (Provider × Option Nat)
  | [], _, _, _, _ => []
  | item :: rest, h, fb, now, cd =>
    if inCooldown h item.1.id now cd then walkAux rest h fb now cd
    else
      let cont := match item.2 with
        | UpstreamOutcome.connFailure =>
            if fb then walkAux rest (assocInsert h item.1.id now) fb now cd else []
        | UpstreamOutcome.response s =>
            if should_fallback s && fb then
              walkAux rest (assocInsert h item.1.id now) fb now cd
            else []
      (item.1, assocGet h item.1.id) :: cont

/-- The outcome of the selection phase of one request: the forwarded
providers with their health snapshots, and the health and stats maps as
they stand after the global-exhaustion reset, before the walk. -/
structure WalkResult where
  trace : List (Provider × Option Nat)
  pre_walk_health : HealthMap
  pre_walk_stats : StatsMap

/-- The `all_in_cooldown` check of `handle_request` (proxy.rs). -/
def allInCooldown (c : GatewayConfig) (t : ApiType) (h0 : HealthMap) (now : Nat) :
    Bool :=
  (c.get_providers_for_api_type t).all
    (fun p => inCooldown h0 p.id now c.circuit_breaker_cooldown_seconds)

/-- The health map after the global-exhaustion reset of `handle_request`
(proxy.rs): when every candidate is in cooldown, every candidate entry is
removed. -/
def preWalkHealth (c : GatewayConfig) (t : ApiType) (h0 : HealthMap) (now : Nat) :
    HealthMap :=
  if allInCooldown c t h0 now then
    (c.get_providers_for_api_type t).foldl (fun h p => assocRemove h p.id) h0
  else h0

/-- The stats map after the global-exhaustion reset of `handle_request`
(proxy.rs): when every candidate is in cooldown, every candidate gets
`reset_provider_health`. -/
def preWalkStats (c : GatewayConfig) (t : ApiType) (h0 : HealthMap)
    (stats0 : StatsMap) (now : Nat) : StatsMap :=
  if allInCooldown c t h0 now then
    (c.get_providers_for_api_type t).foldl
      (fun s p => reset_provider_health s p.name) stats0
  else stats0

/-- The candidate-selection and walk portion of `handle_request`
(proxy.rs): filter candidates, check whether all are in cooldown (and if
so clear their cooldowns and reset their stats health), then walk. -/
def handle_request_walk (c : GatewayConfig) (t : ApiType) (h0 : HealthMap)
    (stats0 : StatsMap) (now : Nat) (outcomes : List UpstreamOutcome) : WalkResult :=
  { trace := walkAux ((c.get_providers_for_api_type t).zip outcomes)
      (preWalkHealth c t h0 now) c.fallback_enabled now
      c.circuit_breaker_cooldown_seconds,
    pre_walk_health := preWalkHealth c t h0 now,
    pre_walk_stats := preWalkStats c t h0 stats0 now }


/-- C1 (counterexample): with two enabled Anthropic providers of weights
1 and 2 in that config order, the candidate list the code walks is the
config-order filter result [A, B], not the descending-weight order [B, A]
the claim describes. -/
theorem C1_counterexample :
    c1Config.get_providers_for_api_type ApiType.Anthropic ≠
      specCandidates c1Config ApiType.Anthropic := by
  decide

/-- C1 (amended): the candidate providers attempted by the request handler
are exactly the enabled providers whose api_types contains the dialect, in
the order of the config providers sequence; the weight field is not
consulted. -/
theorem C1_candidates_config_order (c : GatewayConfig) (t : ApiType) :
    (c.get_providers_for_api_type t).Sublist c.providers ∧
      ∀ p : Provider, p ∈ c.get_providers_for_api_type t ↔
        (p ∈ c.providers ∧ p.enabled = true ∧ t ∈ p.api_types) := by
  constructor
  · exact List.filter_sublist c.providers
  · intro p
    simp [GatewayConfig.get_providers_for_api_type, List.mem_filter,
      List.contains, List.elem_iff, and_assoc]

/-- C3 (counterexample): with `cache_max_entries = 0`, a single `set` on
the empty cache still inserts, leaving 1 entry, so the post-insert size
exceeds the configured bound. -/
theorem C3_counterexample :
    ¬ (cacheSet [] 0 600 "k" [] 200 [] 0).length ≤ 0 := by
  decide

/-- C3 (amended): for every configuration with `cache_max_entries ≥ 1` and
every sequence of cache set operations starting from the empty cache, the
number of entries immediately after any set never exceeds
`cache_max_entries` (with `cache_max_entries = 0` a set leaves one entry). -/
theorem C3_cache_bounded (max_entries default_ttl : Nat)
    (hmax : 1 ≤ max_entries) (ops : List SetOp) :
    (applySets max_entries default_ttl [] ops).length ≤ max_entries :=
  applySets_length_le hmax default_ttl ops [] (by simp)

/-- Witness for C3: two concrete sets under capacity 1 leave at most one entry. -/
theorem C3_cache_bounded_witness :
    (applySets 1 600 []
      [{ key := "a", body := [], status := 200, headers := [], now := 0 },
       { key := "b", body := [], status := 200, headers := [], now := 5 }]).length ≤ 1 :=
  C3_cache_bounded 1 600 (by decide)
    [{ key := "a", body := [], status := 200, headers := [], now := 0 },
     { key := "b", body := [], status := 200, headers := [], now := 5 }]

/-- C4: the fallback classification holds exactly for the 5xx statuses and
the listed 4xx statuses 401, 402, 403, 410, 429. -/
theorem C4_should_fallback_iff (s : Nat) :
    should_fallback s = true ↔
      ((500 ≤ s ∧ s ≤ 599) ∨ s = 401 ∨ s = 402 ∨ s = 403 ∨ s = 410 ∨ s = 429) := by
  simp only [should_fallback, isServerError, Bool.or_eq_true, Bool.and_eq_true,
    decide_eq_true_eq, beq_iff_eq]
  omega

theorem assocGet_mem {α : Type} {m : List (String × α)} {k : String} {v : α}
    (hget : assocGet m k = some v) : (k, v) ∈ m := by
  induction m with
  | nil => simp [assocGet] at hget
  | cons kv rest ih =>
    rw [assocGet] at hget
    split at hget
    · rename_i heq
      have hv : v = kv.2 := by
        injection hget with h
        exact h.symm
      have : (k, v) = kv := by
        cases kv
        simp only at heq hv
        rw [heq, hv]
      rw [this]
      exact List.mem_cons_self kv rest
    · exact List.mem_cons_of_mem _ (ih hget)

theorem assocGet_eq_none {α : Type} {m : List (String × α)} {k : String} :
    assocGet m k = none ↔ ∀ kv ∈ m, kv.1 ≠ k := by
  induction m with
  | nil => simp [assocGet]
  | cons kv rest ih =>
    rw [assocGet]
    constructor
    · intro h
      split at h
      · cases h
      · rename_i hne
        intro kv2 hkv2
        rcases List.mem_cons.mp hkv2 with h2 | h2
        · rw [h2]; exact hne
        · exact ih.mp h kv2 h2
    · intro h
      split
      · rename_i heq
        exact absurd heq (h kv (List.mem_cons_self kv rest))
      · exact ih.mpr (fun kv2 hkv2 => h kv2 (List.mem_cons_of_mem _ hkv2))

theorem mem_assocInsert {α : Type} {m : List (String × α)} {k : String} {v : α}
    {kv : String × α} (h : kv ∈ assocInsert m k v) : kv ∈ m ∨ kv = (k, v) := by
  unfold assocInsert at h
  split at h
  · obtain ⟨kv0, hkv0, heq⟩ := List.mem_map.mp h
    by_cases hk : kv0.1 = k
    · right
      rw [if_pos hk] at heq
      exact heq.symm
    · left
      rw [if_neg hk] at heq
      rw [← heq]
      exact hkv0
  · rcases List.mem_append.mp h with h2 | h2
    · exact Or.inl h2
    · simp only [List.mem_singleton] at h2
      exact Or.inr h2

theorem mem_assocRemove {α : Type} {m : List (String × α)} {k : String}
    {kv : String × α} (h : kv ∈ assocRemove m k) : kv ∈ m :=
  List.mem_of_mem_filter h

theorem walkAux_no_cooldown_forward (items : List (Provider × UpstreamOutcome))
    (h : HealthMap) (fb : Bool) (now cd : Nat) (hnow : now < u64Lim)
    (hinv : ∀ kv ∈ h, kv.2 ≤ now) :
    ∀ p lf, (p, some lf) ∈ walkAux items h fb now cd → lf + cd ≤ now := by
  induction items generalizing h with
  | nil => intro p lf hmem; simp [walkAux] at hmem
  | cons item rest ih =>
    intro p lf hmem
    rw [walkAux] at hmem
    split at hmem
    · exact ih h hinv p lf hmem
    · rename_i hskip
      have hinv2 : ∀ kv ∈ assocInsert h item.1.id now, kv.2 ≤ now := by
        intro kv hkv
        rcases mem_assocInsert hkv with h2 | h2
        · exact hinv kv h2
        · rw [h2]
      rcases List.mem_cons.mp hmem with h2 | h2
      · have hget : assocGet h item.1.id = some lf := by
          injection h2 with h2a h2b
          rw [h2b]
        have hle : lf ≤ now := hinv (item.1.id, lf) (assocGet_mem hget)
        have hnc : ¬ (u64Sub now lf < cd) := by
          intro hcon
          apply hskip
          unfold inCooldown
          rw [hget]
          simpa using hcon
        rw [u64Sub_of_le hle hnow] at hnc
        omega
      · rcases hoc : item.2 with _ | s
        · rw [hoc] at h2
          simp only at h2
          split at h2
          · exact ih _ hinv2 p lf h2
          · cases h2
        · rw [hoc] at h2
          simp only at h2
          split at h2
          · exact ih _ hinv2 p lf h2
          · cases h2

theorem assocRemove_get_self {α : Type} (m : List (String × α)) (k : String) :
    assocGet (assocRemove m k) k = none := by
  rw [assocGet_eq_none]
  intro kv hkv
  have := List.of_mem_filter hkv
  simpa using this

theorem assocRemove_get_none {α : Type} {m : List (String × α)} {k : String}
    (j : String) (h : assocGet m k = none) :
    assocGet (assocRemove m j) k = none := by
  rw [assocGet_eq_none] at h ⊢
  intro kv hkv
  exact h kv (mem_assocRemove hkv)

theorem foldl_remove_get_none {m : HealthMap} {k : String}
    (ps : List Provider) (h : assocGet m k = none) :
    assocGet (ps.foldl (fun h p => assocRemove h p.id) m) k = none := by
  induction ps generalizing m with
  | nil => simpa using h
  | cons q rest ih =>
    simp only [List.foldl_cons]
    exact ih (assocRemove_get_none q.id h)

theorem foldl_remove_mem_get_none (ps : List Provider) (m : HealthMap)
    (p : Provider) (hp : p ∈ ps) :
    assocGet (ps.foldl (fun h q => assocRemove h q.id) m) p.id = none := by
  induction ps generalizing m with
  | nil => cases hp
  | cons q rest ih =>
    simp only [List.foldl_cons]
    rcases List.mem_cons.mp hp with h2 | h2
    · subst h2
      exact foldl_remove_get_none rest (assocRemove_get_self m p.id)
    · exact ih _ h2

theorem reset_get_self (s : StatsMap) (n : String) :
    ∀ q, assocGet (reset_provider_health s n) n = some q →
      q.is_healthy = true ∧ q.consecutive_failures = 0 := by
  induction s with
  | nil => intro q hq; simp [reset_provider_health, assocGet] at hq
  | cons kv rest ih =>
    intro q hq
    simp only [reset_provider_health, List.map_cons] at hq
    by_cases hk : kv.1 = n
    · rw [if_pos hk] at hq
      rw [assocGet] at hq
      simp only [hk, if_pos rfl] at hq
      injection hq with h
      rw [← h]
      exact ⟨rfl, rfl⟩
    · rw [if_neg hk] at hq
      rw [assocGet] at hq
      rw [if_neg hk] at hq
      exact ih q hq

theorem reset_preserves_healthy (s : StatsMap) (m n : String)
    (hs : ∀ q, assocGet s n = some q →
      q.is_healthy = true ∧ q.consecutive_failures = 0) :
    ∀ q, assocGet (reset_provider_health s m) n = some q →
      q.is_healthy = true ∧ q.consecutive_failures = 0 := by
  induction s with
  | nil => intro q hq; simp [reset_provider_health, assocGet] at hq
  | cons kv rest ih =>
    intro q hq
    simp only [reset_provider_health, List.map_cons] at hq
    by_cases hk1 : kv.1 = n
    · by_cases hk2 : kv.1 = m
      · rw [if_pos hk2] at hq
        rw [assocGet] at hq
        simp only [hk1, if_pos rfl] at hq
        injection hq with h
        rw [← h]
        exact ⟨rfl, rfl⟩
      · rw [if_neg hk2] at hq
        rw [assocGet, if_pos hk1] at hq
        injection hq with h
        apply hs
        rw [assocGet, if_pos hk1, h]
    · have htail : ∀ q, assocGet rest n = some q →
          q.is_healthy = true ∧ q.consecutive_failures = 0 := by
        intro q2 hq2
        apply hs
        rw [assocGet, if_neg hk1]
        exact hq2
      by_cases hk2 : kv.1 = m
      · rw [if_pos hk2] at hq
        rw [assocGet] at hq
        simp only at hq
        rw [if_neg hk1] at hq
        exact ih htail q hq
      · rw [if_neg hk2] at hq
        rw [assocGet, if_neg hk1] at hq
        exact ih htail q hq

theorem foldl_reset_preserves (ps : List Provider) (s : StatsMap) (n : String)
    (hs : ∀ q, assocGet s n = some q →
      q.is_healthy = true ∧ q.consecutive_failures = 0) :
    ∀ q, assocGet (ps.foldl (fun s p => reset_provider_health s p.name) s) n = some q →
      q.is_healthy = true ∧ q.consecutive_failures = 0 := by
  induction ps generalizing s with
  | nil => simpa using hs
  | cons p rest ih =>
    simp only [List.foldl_cons]
    exact ih _ (reset_preserves_healthy s p.name n hs)

theorem foldl_reset_mem (ps : List Provider) (s : StatsMap) (p : Provider)
    (hp : p ∈ ps) :
    ∀ q, assocGet (ps.foldl (fun s r => reset_provider_health s r.name) s) p.name
        = some q → q.is_healthy = true ∧ q.consecutive_failures = 0 := by
  induction ps generalizing s with
  | nil => cases hp
  | cons r rest ih =>
    simp only [List.foldl_cons]
    rcases List.mem_cons.mp hp with h2 | h2
    · subst h2
      exact foldl_reset_preserves rest (reset_provider_health s p.name) p.name
        (reset_get_self s p.name)
    · exact ih _ h2

theorem mem_foldl_remove (ps : List Provider) (m : HealthMap)
    (kv : String × Nat)
    (h : kv ∈ ps.foldl (fun h p => assocRemove h p.id) m) : kv ∈ m := by
  induction ps generalizing m with
  | nil => simpa using h
  | cons q rest ih =>
    simp only [List.foldl_cons] at h
    exact mem_assocRemove (ih _ h)

theorem preWalkHealth_inv (c : GatewayConfig) (t : ApiType) (h0 : HealthMap)
    (now : Nat) (htime : ∀ kv ∈ h0, kv.2 ≤ now) :
    ∀ kv ∈ preWalkHealth c t h0 now, kv.2 ≤ now := by
  unfold preWalkHealth
  split
  · intro kv hkv
    exact htime kv (mem_foldl_remove _ h0 kv hkv)
  · exact htime

/-- C5: during one request no provider whose recorded last failure lies
within the cooldown window of the request timestamp is forwarded to
(every forwarded provider either had no health entry at its check, or an
entry at least cooldown seconds old); and when every candidate is in
cooldown at the start, all candidate cooldown entries are cleared and all
candidate stats entries are reset healthy before the walk, making every
candidate eligible.  Health-map timestamps are assumed not to lie in the
future of the request (they are recorded from the same clock). -/
theorem C5_circuit_breaker (c : GatewayConfig) (t : ApiType) (h0 : HealthMap)
    (stats0 : StatsMap) (now : Nat) (outcomes : List UpstreamOutcome)
    (hnow : now < u64Lim) (htime : ∀ kv ∈ h0, kv.2 ≤ now) :
    (∀ p lf, (p, some lf) ∈ (handle_request_walk c t h0 stats0 now outcomes).trace →
        lf + c.circuit_breaker_cooldown_seconds ≤ now) ∧
      (allInCooldown c t h0 now = true →
        ∀ p ∈ c.get_providers_for_api_type t,
          assocGet (handle_request_walk c t h0 stats0 now outcomes).pre_walk_health
              p.id = none ∧
            inCooldown (handle_request_walk c t h0 stats0 now outcomes).pre_walk_health
              p.id now c.circuit_breaker_cooldown_seconds = false ∧
            ∀ q, assocGet
                (handle_request_walk c t h0 stats0 now outcomes).pre_walk_stats
                p.name = some q →
              q.is_healthy = true ∧ q.consecutive_failures = 0) := by
  constructor
  · intro p lf hmem
    exact walkAux_no_cooldown_forward _ _ _ _ _ hnow
      (preWalkHealth_inv c t h0 now htime) p lf hmem
  · intro hacd p hp
    have hget : assocGet (preWalkHealth c t h0 now) p.id = none := by
      unfold preWalkHealth
      rw [if_pos hacd]
      exact foldl_remove_mem_get_none _ h0 p hp
    refine ⟨hget, ?_, ?_⟩
    · show inCooldown (preWalkHealth c t h0 now) p.id now
        c.circuit_breaker_cooldown_seconds = false
      unfold inCooldown
      rw [hget]
    · show ∀ q, assocGet (preWalkStats c t h0 stats0 now) p.name = some q → _
      unfold preWalkStats
      rw [if_pos hacd]
      exact foldl_reset_mem _ stats0 p hp

/-- The provider of the C5 witness scenario. -/
def c5Prov : Provider :=
  { id := "c5", name := "C5", base_url := "https://c5", api_key := "k",
    model_mapping := [], enabled := true, api_types := [ApiType.Anthropic],
    weight := 100, claude_code_proxy := false }

/-- The gateway configuration of the C5 witness scenario. -/
def c5Config : GatewayConfig :=
  { anthropic_port := 12345, responses_port := 12346, chat_port := 12347,
    anthropic_enabled := true, responses_enabled := true, chat_enabled := true,
    port := 0, enabled := true, providers := [c5Prov],
    fallback_enabled := true, cache_enabled := false, cache_ttl_seconds := 600,
    cache_max_entries := 1000, circuit_breaker_cooldown_seconds := 60 }

/-- Witness for C5: the single candidate failed 10 seconds ago (within
the 60 second cooldown), so the global-exhaustion reset clears its entry
before the walk. -/
theorem C5_circuit_breaker_witness :
    assocGet (handle_request_walk c5Config ApiType.Anthropic [("c5", 90)] []
        100 [UpstreamOutcome.response 200]).pre_walk_health "c5" = none := by
  have hnow : (100 : Nat) < u64Lim := by decide
  have htime : ∀ kv ∈ [(("c5" : String), (90 : Nat))], kv.2 ≤ 100 := by decide
  have hacd : allInCooldown c5Config ApiType.Anthropic [("c5", 90)] 100 = true := by
    decide
  have hp : c5Prov ∈ c5Config.get_providers_for_api_type ApiType.Anthropic := by
    decide
  exact ((C5_circuit_breaker c5Config ApiType.Anthropic [("c5", 90)] [] 100
    [UpstreamOutcome.response 200] hnow htime).2 hacd c5Prov hp).1

end Gateway
